import Mathlib

/-!
# CashBoard derived-analytics engine — verification development

Shallow embedding of the analytics core of `src/cashboard.jsx`:
the filled-entry filter and summary totals (lines 140–143), the
time-bucketed balance series `balanceChartData` (lines 146–170), the
plan-vs-actual variance rows `planVsActual` (lines 173–190), the plan
upsert `addPlan` (lines 109–122) and the temporal bucketing helpers
`parseMonth` / `parseWeek` / `parseYear` (lines 42–49).

Modelling conventions:
* JavaScript strings holding user-typed numbers are modelled by `NumStr`:
  the empty string, a non-empty non-numeric string, or a non-empty string
  whose `Number(·)` value is the integer `n`.  `Number(x) || 0` is
  `numOr0`, `Number(x) || null` is `numOrNull`, and string truthiness is
  `NumStr.truthy` (every non-empty string is truthy, including `"0"`).
* Dates stay strings, as in the source.  `new Date(d)` for an ISO date
  string and the millisecond arithmetic of `parseWeek` are modelled with
  exact day counts (`epochDays`), assuming a UTC environment, so that
  `(dt - jan1) / 86400000` is the whole number of days between the dates
  and `getDay` is days-since-epoch plus 4 (1970-01-01 was a Thursday),
  modulo 7.  The multi-argument `Date` constructor's two-digit-year rule
  (years 0–99 become 1900+y) is modelled explicitly in `parseWeek`.
* String slicing `slice(0, n)` is `strTake` on the character list, and
  the JS object `groups` keyed by strings is modelled by its key list in
  insertion order (`objKeys`) together with the per-key accumulated sums
  (`bucketIncome` / `bucketExpense`); `Object.keys(groups).sort()` is
  `sortedKeys`.
-/

/-- A JS string that the app feeds to `Number(·)`: empty, non-numeric, or
numeric with integer value `n` (amounts in the app are whole yen). -/
inductive NumStr where
  | empty : NumStr
  | nonnum : NumStr
  | num : Int → NumStr
  deriving DecidableEq

/-- `Number(x) || 0` — the app's permissive parse used in every sum. -/
def numOr0 : NumStr → Int
  | .num n => n
  | _ => 0

/-- `Number(x) || null` — used for a plan's target balance in the series. -/
def numOrNull : NumStr → Option Int
  | .num n => if n = 0 then none else some n
  | _ => none

/-- JS truthiness of the underlying string: any non-empty string. -/
def NumStr.truthy : NumStr → Bool
  | .empty => false
  | _ => true

/-- The entry `type` field, restricted to the two values offered by the UI
(`"収入"` = income, `"支出"` = expense). -/
inductive Kind where
  | income : Kind
  | expense : Kind
  deriving DecidableEq

/-- A ledger entry row (source `emptyEntry` shape, lines 15–25). -/
structure Entry where
  id : String
  date : String
  type : Kind
  category : String
  description : String
  amount : NumStr
  memo : String
  receipt : Option String
  receiptName : String
  deriving DecidableEq

/-- A monthly plan (source `emptyPlan` shape, lines 27–33). -/
structure Plan where
  id : String
  month : String
  targetBalance : NumStr
  plannedIncome : NumStr
  plannedExpense : NumStr
  deriving DecidableEq

/-- `entries.filter(r => r.description || r.amount)` (line 140). -/
def filledEntries (es : List Entry) : List Entry :=
  es.filter fun r => r.description != "" || r.amount.truthy

/-- `filled.filter(r => r.type === "収入").reduce((s, r) => s + (Number(r.amount) || 0), 0)` (line 141). -/
def totalIncome (es : List Entry) : Int :=
  ((filledEntries es).filter fun r => r.type == Kind.income).foldl
    (fun s r => s + numOr0 r.amount) 0

/-- `filled.filter(r => r.type === "支出").reduce(...)` (line 142). -/
def totalExpense (es : List Entry) : Int :=
  ((filledEntries es).filter fun r => r.type == Kind.expense).foldl
    (fun s r => s + numOr0 r.amount) 0

/-- The three summary aggregates of lines 141–143. -/
structure Summary where
  totalIncome : Int
  totalExpense : Int
  currentBalance : Int
  deriving DecidableEq

/-- Summary totals: `currentBalance = (Number(initialBalance) || 0) + totalIncome - totalExpense`. -/
def summarize (es : List Entry) (initialBalance : NumStr) : Summary :=
  { totalIncome := totalIncome es
    totalExpense := totalExpense es
    currentBalance := numOr0 initialBalance + totalIncome es - totalExpense es }

/-! ## Temporal bucketing (source lines 42–49) -/

/-- `s.slice(0, n)` on the character list. -/
def strTake (s : String) (n : Nat) : String := ⟨s.data.take n⟩

/-- `s.slice(n)` on the character list. -/
def strDrop (s : String) (n : Nat) : String := ⟨s.data.drop n⟩

/-- `parseMonth = d => d.slice(0, 7)`. -/
def parseMonth (d : String) : String := strTake d 7

/-- `parseYear = d => d.slice(0, 4)`. -/
def parseYear (d : String) : String := strTake d 4

/-- Digits of a decimal numeral folded to their value; `none` on a
non-digit, mirroring how a malformed component would poison the result. -/
def digitsVal : List Char → Nat → Option Nat
  | [], acc => some acc
  | c :: cs, acc =>
    if c.isDigit then digitsVal cs (acc * 10 + (c.toNat - '0'.toNat)) else none

/-- Numeric value of a string of decimal digits (0 on anything else). -/
def str2nat (s : String) : Nat :=
  (digitsVal s.data 0).getD 0

/-- Gregorian leap-year test. -/
def isLeap (y : Nat) : Bool :=
  (y % 4 == 0 && y % 100 != 0) || y % 400 == 0

/-- Days in the months strictly before month `m` of year `y`
(`m` is 1-based; out-of-range months take the whole year). -/
def daysBeforeMonth (y m : Nat) : Nat :=
  let l : Nat := if isLeap y then 1 else 0
  match m with
  | 1 => 0
  | 2 => 31
  | 3 => 59 + l
  | 4 => 90 + l
  | 5 => 120 + l
  | 6 => 151 + l
  | 7 => 181 + l
  | 8 => 212 + l
  | 9 => 243 + l
  | 10 => 273 + l
  | 11 => 304 + l
  | _ => 334 + l

/-- Number of days in month `m` of year `y`. -/
def daysInMonth (y m : Nat) : Nat :=
  let l : Nat := if isLeap y then 1 else 0
  match m with
  | 2 => 28 + l
  | 4 => 30
  | 6 => 30
  | 9 => 30
  | 11 => 30
  | _ => 31

/-- Days from 0001-01-01 to the first day of year `y` (proleptic Gregorian). -/
def daysToYear (y : Nat) : Int :=
  let p := y - 1
  365 * (p : Int) + ((p / 4 : Nat) : Int) - ((p / 100 : Nat) : Int) + ((p / 400 : Nat) : Int)

/-- Days since 1970-01-01 of the calendar date `(y, m, d)`: the timestamp
of `new Date(y, m-1, d)` divided by 86400000 (UTC environment).
`daysToYear 1970 = 719162`. -/
def epochDays (y m d : Nat) : Int :=
  daysToYear y + daysBeforeMonth y m + ((d - 1 : Nat) : Int) - 719162

/-- `Date.prototype.getDay` of a date that is `days` days since the epoch:
0 = Sunday .. 6 = Saturday; 1970-01-01 was a Thursday (4). -/
def jsDay (days : Int) : Int := (days + 4) % 7

/-- `String(n).padStart(2, "0")`. -/
def padStart2 (s : String) : String :=
  if s.length < 2 then ⟨List.replicate (2 - s.length) '0' ++ s.data⟩ else s

/-- `parseWeek` (lines 43–48): parse the ISO components of `d`, and return
``${year}-W${String(wk).padStart(2, "0")}`` where
`wk = Math.ceil(((dt - jan1) / 86400000 + jan1.getDay() + 1) / 7)`.
`jan1 = new Date(dt.getFullYear(), 0, 1)` uses the multi-argument `Date`
constructor, which treats a year argument in 0–99 as 1900 + year
(ECMAScript MakeDay), so for parsed years 1–99 `jan1` is January 1st of
1900+y while `dt.getFullYear()` is still y.
`Math.ceil(x / 7)` on an integer `x` is floor division `(x + 6) / 7`. -/
def parseWeek (d : String) : String :=
  let y := str2nat (strTake d 4)
  let mo := str2nat (strTake (strDrop d 5) 2)
  let da := str2nat (strTake (strDrop d 8) 2)
  let dt := epochDays y mo da
  let jan1 := epochDays (if y ≤ 99 then 1900 + y else y) 1 1
  let wk : Int := (dt - jan1 + jsDay jan1 + 1 + 6) / 7
  toString y ++ "-W" ++ padStart2 (toString wk)

/-- The four dashboard granularities (source `PERIODS`, lines 6–11). -/
inductive Period where
  | day : Period
  | week : Period
  | month : Period
  | year : Period
  deriving DecidableEq

/-- `groupKey` selection of line 149. -/
def groupKey : Period → String → String
  | .day, d => d
  | .week, d => parseWeek d
  | .month, d => parseMonth d
  | .year, d => parseYear d

/-! ## Lexicographic string order

JS compares strings by UTF-16 code units: the default `Array.sort()` on
the bucket keys and (on ISO strings) `localeCompare` are both plain
lexicographic comparison.  We model it with a structural boolean
comparison on the character lists. -/

/-- Lexicographic `≤` on character lists (code-unit comparison). -/
def lexLeb : List Char → List Char → Bool
  | [], _ => true
  | _ :: _, [] => false
  | a :: as, b :: bs => if a = b then lexLeb as bs else decide (a < b)

theorem lexLeb_total : ∀ as bs, lexLeb as bs = true ∨ lexLeb bs as = true
  | [], _ => Or.inl rfl
  | _ :: _, [] => Or.inr rfl
  | a :: as, b :: bs => by
    by_cases hab : a = b
    · subst hab
      simpa [lexLeb] using lexLeb_total as bs
    · rcases lt_or_gt_of_ne hab with h | h
      · exact Or.inl (by simp [lexLeb, hab, h])
      · exact Or.inr (by simp [lexLeb, Ne.symm hab, h])

theorem lexLeb_trans :
    ∀ as bs cs, lexLeb as bs = true → lexLeb bs cs = true → lexLeb as cs = true
  | [], _, _, _, _ => rfl
  | _ :: _, [], _, h₁, _ => by cases h₁
  | _ :: _, _ :: _, [], _, h₂ => by cases h₂
  | a :: as, b :: bs, c :: cs, h₁, h₂ => by
    by_cases hab : a = b <;> by_cases hbc : b = c
    · subst hab; subst hbc
      simp only [lexLeb, if_pos rfl] at h₁ h₂ ⊢
      exact lexLeb_trans as bs cs h₁ h₂
    · subst hab
      simpa [lexLeb, hbc] using h₂
    · subst hbc
      simpa [lexLeb, hab] using h₁
    · simp only [lexLeb, if_neg hab, decide_eq_true_eq] at h₁
      simp only [lexLeb, if_neg hbc, decide_eq_true_eq] at h₂
      have hac : a < c := lt_trans h₁ h₂
      simp [lexLeb, ne_of_lt hac, hac]

theorem lexLeb_antisymm :
    ∀ as bs, lexLeb as bs = true → lexLeb bs as = true → as = bs
  | [], [], _, _ => rfl
  | [], _ :: _, _, h₂ => by cases h₂
  | _ :: _, [], h₁, _ => by cases h₁
  | a :: as, b :: bs, h₁, h₂ => by
    by_cases hab : a = b
    · subst hab
      simp only [lexLeb, if_pos rfl] at h₁ h₂
      exact congrArg (a :: ·) (lexLeb_antisymm as bs h₁ h₂)
    · simp only [lexLeb, if_neg hab, decide_eq_true_eq] at h₁
      simp only [lexLeb, if_neg (Ne.symm hab), decide_eq_true_eq] at h₂
      exact absurd h₂ (not_lt_of_gt h₁)

/-- JS string comparison as a relation. -/
def strLe (a b : String) : Prop := lexLeb a.data b.data = true

instance : DecidableRel strLe :=
  fun a b => inferInstanceAs (Decidable (lexLeb a.data b.data = true))

instance : IsTotal String strLe := ⟨fun a b => lexLeb_total a.data b.data⟩

instance : IsTrans String strLe :=
  ⟨fun _ _ _ h h' => lexLeb_trans _ _ _ h h'⟩

instance : IsAntisymm String strLe :=
  ⟨fun a b h h' => by
    cases a; cases b
    exact congrArg String.mk (lexLeb_antisymm _ _ h h')⟩

/-! ## The balance series `balanceChartData` (source lines 146–170) -/

/-- Sort key for `[...filled].sort((a, b) => a.date.localeCompare(b.date))`;
on ISO date strings `localeCompare` agrees with code-unit order. -/
def dateLe (a b : Entry) : Prop := strLe a.date b.date

instance : DecidableRel dateLe :=
  fun a b => inferInstanceAs (Decidable (strLe a.date b.date))

instance : IsTotal Entry dateLe := ⟨fun a b => IsTotal.total (r := strLe) a.date b.date⟩

instance : IsTrans Entry dateLe :=
  ⟨fun _ _ _ h h' => IsTrans.trans (r := strLe) _ _ _ h h'⟩

/-- The filled entries sorted ascending by date (line 148). -/
def sortedFilled (es : List Entry) : List Entry :=
  (filledEntries es).insertionSort dateLe

/-- Key insertion into the JS object `groups`: a fresh key is appended to
the (insertion-ordered) key list, an existing key changes nothing. -/
def insertKey (ks : List String) (k : String) : List String :=
  if k ∈ ks then ks else ks ++ [k]

/-- The key list of the `groups` object after the `forEach` of lines 151–156,
in insertion order. -/
def objKeys (g : Period) (es : List Entry) : List String :=
  es.foldl (fun ks e => insertKey ks (groupKey g e.date)) []

/-- `Object.keys(groups).sort()` (line 158). -/
def sortedKeys (g : Period) (es : List Entry) : List String :=
  (objKeys g es).insertionSort strLe

/-- `groups[k].income`: the accumulated income of bucket `k` (lines 151–156). -/
def bucketIncome (g : Period) (es : List Entry) (k : String) : Int :=
  (es.filter fun e => groupKey g e.date == k && e.type == Kind.income).foldl
    (fun s e => s + numOr0 e.amount) 0

/-- `groups[k].expense`: the accumulated expense of bucket `k`; any entry
whose type is not `"収入"` lands here (line 155). -/
def bucketExpense (g : Period) (es : List Entry) (k : String) : Int :=
  (es.filter fun e => groupKey g e.date == k && !(e.type == Kind.income)).foldl
    (fun s e => s + numOr0 e.amount) 0

/-- One row of `balanceChartData` (lines 162–168).  The source field names
are Japanese: `残高` = balance, `収入` = income, `支出` = expense,
`計画残高` = planBalance. -/
structure Row where
  period : String
  balance : Int
  income : Int
  expense : Int
  planBalance : Option Int
  deriving DecidableEq

/-- The `keys.map` walk of lines 159–169: running balance over the sorted
bucket keys, one row per key, with the per-month plan target merged in. -/
def seriesRows (g : Period) (plans : List Plan) (es : List Entry) :
    Int → List String → List Row
  | _, [] => []
  | balance, k :: ks =>
    let inc := bucketIncome g es k
    let ex := bucketExpense g es k
    let b := balance + inc - ex
    { period := k
      balance := b
      income := inc
      expense := ex
      planBalance :=
        match plans.find? (fun p => p.month == k) with
        | some p => numOrNull p.targetBalance
        | none => none } :: seriesRows g plans es b ks

/-- `balanceChartData` (lines 146–170) as a function of its inputs. -/
def buildSeries (entries : List Entry) (g : Period) (initialBalance : NumStr)
    (plans : List Plan) : List Row :=
  if (filledEntries entries).isEmpty then []
  else
    seriesRows g plans (sortedFilled entries) (numOr0 initialBalance)
      (sortedKeys g (sortedFilled entries))

/-! ## Plan vs actual `planVsActual` (source lines 173–190) -/

/-- One variance row (lines 179–188).  The source field names are Japanese:
`計画収入` = plannedIncome, `実績収入` = actualIncome, `計画支出` =
plannedExpense, `実績支出` = actualExpense, `計画残高` = targetBalance,
`収入乖離` = incomeVariance, `支出乖離` = expenseVariance. -/
structure VRow where
  month : String
  plannedIncome : Int
  actualIncome : Int
  plannedExpense : Int
  actualExpense : Int
  targetBalance : Int
  incomeVariance : Int
  expenseVariance : Int
  deriving DecidableEq

/-- The row built for a single plan (lines 175–188). -/
def varianceRow (entries : List Entry) (p : Plan) : VRow :=
  let monthEntries := (filledEntries entries).filter fun e => parseMonth e.date == p.month
  let actualIncome := (monthEntries.filter fun e => e.type == Kind.income).foldl
    (fun s e => s + numOr0 e.amount) 0
  let actualExpense := (monthEntries.filter fun e => e.type == Kind.expense).foldl
    (fun s e => s + numOr0 e.amount) 0
  { month := p.month
    plannedIncome := numOr0 p.plannedIncome
    actualIncome := actualIncome
    plannedExpense := numOr0 p.plannedExpense
    actualExpense := actualExpense
    targetBalance := numOr0 p.targetBalance
    incomeVariance := actualIncome - numOr0 p.plannedIncome
    expenseVariance := actualExpense - numOr0 p.plannedExpense }

/-- Sort key for `.sort((a, b) => a.month.localeCompare(b.month))` (line 189). -/
def monthLe (a b : VRow) : Prop := strLe a.month b.month

instance : DecidableRel monthLe :=
  fun a b => inferInstanceAs (Decidable (strLe a.month b.month))

instance : IsTotal VRow monthLe := ⟨fun a b => IsTotal.total (r := strLe) a.month b.month⟩

instance : IsTrans VRow monthLe :=
  ⟨fun _ _ _ h h' => IsTrans.trans (r := strLe) _ _ _ h h'⟩

/-- `planVsActual` (lines 173–190). -/
def planVsActual (plans : List Plan) (entries : List Entry) : List VRow :=
  if plans.isEmpty then []
  else (plans.map (varianceRow entries)).insertionSort monthLe

/-! ## Plan upsert `addPlan` and deletion (source lines 109–122 and 599) -/

/-- The guard of lines 110–112: all three plan values are empty strings. -/
def planFormBlank (form : Plan) : Prop :=
  form.targetBalance = NumStr.empty ∧ form.plannedIncome = NumStr.empty ∧
    form.plannedExpense = NumStr.empty

instance : Decidable (planFormBlank form) := by
  unfold planFormBlank; infer_instance

/-- `p.map((pl, i) => ...)` with the element index, as in line 115. -/
def mapWithIdx (l : List α) (f : Nat → α → α) : List α :=
  match l with
  | [] => []
  | a :: as => f 0 a :: mapWithIdx as fun j => f (j + 1)

/-- `addPlan` (lines 109–122): reject an all-blank form; replace the first
plan with the same month in place, keeping its id; otherwise append. -/
def addPlan (plans : List Plan) (form : Plan) : List Plan :=
  if planFormBlank form then plans
  else
    match plans.findIdx? (fun p => p.month == form.month) with
    | some i => mapWithIdx plans fun j pl => if j = i then { form with id := pl.id } else pl
    | none => plans ++ [form]

/-- Plan deletion (line 599): `prev.filter(x => x.id !== p.id)`. -/
def deletePlan (plans : List Plan) (pid : String) : List Plan :=
  plans.filter fun x => x.id != pid

/-! ## Helper lemmas -/

theorem foldl_add_eq {α : Type} (f : α → Int) :
    ∀ (l : List α) (s : Int), l.foldl (fun s e => s + f e) s = s + (l.map f).sum
  | [], s => by simp
  | a :: l, s => by
    simp only [List.foldl_cons, List.map_cons, List.sum_cons]
    rw [foldl_add_eq f l (s + f a)]
    ring

theorem sortedFilled_perm (es : List Entry) : (sortedFilled es).Perm (filledEntries es) :=
  List.perm_insertionSort dateLe (filledEntries es)

theorem mem_filledEntries_of_mem {es : List Entry} {e : Entry}
    (h : e ∈ filledEntries es) : e ∈ es :=
  (List.mem_filter.mp h).1

theorem mem_insertKey {ks : List String} {k k' : String} :
    k' ∈ insertKey ks k ↔ k' ∈ ks ∨ k' = k := by
  unfold insertKey
  split
  · rename_i h
    constructor
    · exact Or.inl
    · rintro (h' | rfl)
      · exact h'
      · exact h
  · simp [List.mem_append]

theorem insertKey_nodup {ks : List String} {k : String} (h : ks.Nodup) :
    (insertKey ks k).Nodup := by
  unfold insertKey
  split
  · exact h
  · rename_i hk
    simpa [List.nodup_append] using ⟨h, hk⟩

theorem foldl_insertKey_nodup (g : Period) :
    ∀ (l : List Entry) (acc : List String), acc.Nodup →
      (l.foldl (fun ks e => insertKey ks (groupKey g e.date)) acc).Nodup
  | [], _, h => h
  | e :: l, acc, h =>
    foldl_insertKey_nodup g l (insertKey acc (groupKey g e.date)) (insertKey_nodup h)

theorem mem_foldl_insertKey (g : Period) :
    ∀ (l : List Entry) (acc : List String) (k : String),
      k ∈ l.foldl (fun ks e => insertKey ks (groupKey g e.date)) acc ↔
        k ∈ acc ∨ ∃ e ∈ l, groupKey g e.date = k
  | [], acc, k => by simp
  | e :: l, acc, k => by
    rw [List.foldl_cons, mem_foldl_insertKey g l]
    rw [mem_insertKey]
    constructor
    · rintro ((h | rfl) | ⟨e', he', rfl⟩)
      · exact Or.inl h
      · exact Or.inr ⟨e, List.mem_cons_self e l, rfl⟩
      · exact Or.inr ⟨e', List.mem_cons_of_mem e he', rfl⟩
    · rintro (h | ⟨e', he', rfl⟩)
      · exact Or.inl (Or.inl h)
      · rcases List.mem_cons.mp he' with rfl | he'
        · exact Or.inl (Or.inr rfl)
        · exact Or.inr ⟨e', he', rfl⟩

theorem objKeys_nodup (g : Period) (l : List Entry) : (objKeys g l).Nodup :=
  foldl_insertKey_nodup g l [] List.nodup_nil

theorem mem_objKeys {g : Period} {l : List Entry} {k : String} :
    k ∈ objKeys g l ↔ ∃ e ∈ l, groupKey g e.date = k := by
  unfold objKeys
  rw [mem_foldl_insertKey]
  simp

theorem foldl_insertKey_of_mem (g : Period) :
    ∀ (l : List Entry) (acc : List String),
      (∀ e ∈ l, groupKey g e.date ∈ acc) →
      l.foldl (fun ks e => insertKey ks (groupKey g e.date)) acc = acc
  | [], _, _ => rfl
  | e :: l, acc, h => by
    rw [List.foldl_cons]
    have hk : groupKey g e.date ∈ acc := h e (List.mem_cons_self e l)
    have : insertKey acc (groupKey g e.date) = acc := by
      unfold insertKey
      exact if_pos hk
    rw [this]
    exact foldl_insertKey_of_mem g l acc fun e' he' => h e' (List.mem_cons_of_mem e he')

theorem objKeys_all_eq {g : Period} {k : String} :
    ∀ {l : List Entry}, l ≠ [] → (∀ e ∈ l, groupKey g e.date = k) →
      objKeys g l = [k]
  | [], h, _ => absurd rfl h
  | e :: l, _, hall => by
    unfold objKeys
    rw [List.foldl_cons]
    have h0 : insertKey [] (groupKey g e.date) = [k] := by
      rw [hall e (List.mem_cons_self e l)]
      rfl
    rw [h0]
    exact foldl_insertKey_of_mem g l [k] fun e' he' => by
      rw [hall e' (List.mem_cons_of_mem e he')]
      exact List.mem_singleton_self k

theorem sortedKeys_perm (g : Period) (es : List Entry) :
    (sortedKeys g es).Perm (objKeys g es) :=
  List.perm_insertionSort strLe (objKeys g es)

theorem sortedKeys_sorted (g : Period) (es : List Entry) :
    (sortedKeys g es).Sorted strLe :=
  List.sorted_insertionSort strLe (objKeys g es)

theorem sortedKeys_nodup (g : Period) (es : List Entry) :
    (sortedKeys g es).Nodup :=
  ((sortedKeys_perm g es).nodup_iff).mpr (objKeys_nodup g es)

theorem seriesRows_length (g : Period) (ps : List Plan) (es : List Entry) :
    ∀ (ks : List String) (b : Int), (seriesRows g ps es b ks).length = ks.length
  | [], _ => rfl
  | _ :: ks, b => by
    unfold seriesRows
    simpa using seriesRows_length g ps es ks _

theorem seriesRows_map_period (g : Period) (ps : List Plan) (es : List Entry) :
    ∀ (ks : List String) (b : Int), (seriesRows g ps es b ks).map Row.period = ks
  | [], _ => rfl
  | _ :: ks, b => by
    unfold seriesRows
    simpa using seriesRows_map_period g ps es ks _

theorem seriesRows_mem (g : Period) (ps : List Plan) (es : List Entry) :
    ∀ (ks : List String) (b : Int) (r : Row), r ∈ seriesRows g ps es b ks →
      r.period ∈ ks ∧
        r.planBalance = (match ps.find? (fun p => p.month == r.period) with
          | some p => numOrNull p.targetBalance
          | none => none)
  | [], _, r, h => by cases h
  | k :: ks, b, r, h => by
    unfold seriesRows at h
    rcases List.mem_cons.mp h with rfl | h
    · exact ⟨List.mem_cons_self _ _, rfl⟩
    · have ih := seriesRows_mem g ps es ks _ r h
      exact ⟨List.mem_cons_of_mem _ ih.1, ih.2⟩

theorem seriesRows_balance (g : Period) (ps : List Plan) (es : List Entry) :
    ∀ (ks : List String) (b : Int) (i : Nat) (h : i < (seriesRows g ps es b ks).length),
      ((seriesRows g ps es b ks)[i]).balance
        = b + ((ks.take (i + 1)).map
            fun k => bucketIncome g es k - bucketExpense g es k).sum
  | [], b, i, h => by
    simp [seriesRows] at h
  | k :: ks, b, 0, h => by
    simp only [seriesRows, List.getElem_cons_zero, List.take_succ_cons, List.take_zero,
      List.map_cons, List.map_nil, List.sum_cons, List.sum_nil]
    omega
  | k :: ks, b, i + 1, h => by
    have h' : i < (seriesRows g ps es (b + bucketIncome g es k - bucketExpense g es k) ks).length := by
      have := h
      unfold seriesRows at this
      simpa using this
    have ih := seriesRows_balance g ps es ks
      (b + bucketIncome g es k - bucketExpense g es k) i h'
    unfold seriesRows
    simp only [List.getElem_cons_succ, List.take_succ_cons, List.map_cons, List.sum_cons]
    rw [ih]
    omega

theorem kind_not_income (t : Kind) : (!(t == Kind.income)) = (t == Kind.expense) := by
  cases t <;> rfl

theorem bucketIncome_perm {es₁ es₂ : List Entry} (g : Period) (k : String)
    (h : es₁.Perm es₂) : bucketIncome g es₁ k = bucketIncome g es₂ k := by
  unfold bucketIncome
  rw [foldl_add_eq, foldl_add_eq]
  exact congrArg (0 + ·) (((h.filter _).map _).sum_eq)

theorem bucketExpense_perm {es₁ es₂ : List Entry} (g : Period) (k : String)
    (h : es₁.Perm es₂) : bucketExpense g es₁ k = bucketExpense g es₂ k := by
  unfold bucketExpense
  rw [foldl_add_eq, foldl_add_eq]
  exact congrArg (0 + ·) (((h.filter _).map _).sum_eq)

theorem seriesRows_congr (g : Period) (ps : List Plan) {es₁ es₂ : List Entry}
    (h : es₁.Perm es₂) :
    ∀ (ks : List String) (b : Int), seriesRows g ps es₁ b ks = seriesRows g ps es₂ b ks
  | [], _ => rfl
  | k :: ks, b => by
    unfold seriesRows
    dsimp only
    rw [bucketIncome_perm g k h, bucketExpense_perm g k h]
    exact congrArg _ (seriesRows_congr g ps h ks _)

theorem objKeys_perm {es₁ es₂ : List Entry} (g : Period) (h : es₁.Perm es₂) :
    (objKeys g es₁).Perm (objKeys g es₂) := by
  rw [List.perm_ext_iff_of_nodup (objKeys_nodup g es₁) (objKeys_nodup g es₂)]
  intro k
  rw [mem_objKeys, mem_objKeys]
  constructor
  · rintro ⟨e, he, rfl⟩
    exact ⟨e, h.mem_iff.mp he, rfl⟩
  · rintro ⟨e, he, rfl⟩
    exact ⟨e, h.mem_iff.mpr he, rfl⟩

theorem sortedKeys_congr {es₁ es₂ : List Entry} (g : Period) (h : es₁.Perm es₂) :
    sortedKeys g es₁ = sortedKeys g es₂ :=
  List.eq_of_perm_of_sorted
    ((sortedKeys_perm g es₁).trans ((objKeys_perm g h).trans (sortedKeys_perm g es₂).symm))
    (sortedKeys_sorted g es₁) (sortedKeys_sorted g es₂)

/-! ## Worked-example data from the spec (§8) -/

/-- The January expense entry of the spec's worked example. -/
def exEntryJan : Entry :=
  { id := "e1", date := "2024-01-05", type := Kind.expense, category := "食費",
    description := "lunch", amount := NumStr.num 1000, memo := "",
    receipt := none, receiptName := "" }

/-- The February income entry of the spec's worked example. -/
def exEntryFeb : Entry :=
  { id := "e2", date := "2024-02-10", type := Kind.income, category := "給与・報酬",
    description := "salary", amount := NumStr.num 5000, memo := "",
    receipt := none, receiptName := "" }

/-- The draft entry of the spec's worked example (empty description and amount). -/
def exDraftEntry : Entry :=
  { id := "e3", date := "2024-03-01", type := Kind.expense, category := "食費",
    description := "", amount := NumStr.empty, memo := "",
    receipt := none, receiptName := "" }

/-- The January plan of the spec's worked example. -/
def exPlanJan : Plan :=
  { id := "p1", month := "2024-01", targetBalance := NumStr.empty,
    plannedIncome := NumStr.num 4000, plannedExpense := NumStr.num 900 }

/-! ## Claims -/

/-- C1: for entries = [2024-01-05 Expense 1000 "lunch", 2024-02-10 Income
5000 "salary"], initial balance 10000 and Month granularity, `buildSeries`
returns exactly the two rows (2024-01, balance 9000, income 0, expense
1000) and (2024-02, balance 14000, income 5000, expense 0), in that order. -/
theorem buildSeries_example :
    buildSeries [exEntryJan, exEntryFeb] Period.month (NumStr.num 10000) []
      = [{ period := "2024-01", balance := 9000, income := 0, expense := 1000,
           planBalance := none },
         { period := "2024-02", balance := 14000, income := 5000, expense := 0,
           planBalance := none }] := by
  decide

/-- C4: for every entry list and initial balance, `summarize` returns
totalIncome = sum of amounts of filled Income entries, totalExpense = sum
of amounts of filled Expense entries (non-numeric amounts coerced to 0),
and currentBalance = initialBalance + totalIncome - totalExpense. -/
theorem summarize_spec (es : List Entry) (b : NumStr) :
    summarize es b =
      { totalIncome := (((filledEntries es).filter fun r => r.type == Kind.income).map
            fun r => numOr0 r.amount).sum
        totalExpense := (((filledEntries es).filter fun r => r.type == Kind.expense).map
            fun r => numOr0 r.amount).sum
        currentBalance := numOr0 b
            + (((filledEntries es).filter fun r => r.type == Kind.income).map
                fun r => numOr0 r.amount).sum
            - (((filledEntries es).filter fun r => r.type == Kind.expense).map
                fun r => numOr0 r.amount).sum } := by
  simp only [summarize, totalIncome, totalExpense, foldl_add_eq, zero_add]

/-- A filter by filledness is idempotent. -/
theorem filledEntries_idem (es : List Entry) :
    filledEntries (filledEntries es) = filledEntries es := by
  unfold filledEntries
  rw [List.filter_filter]
  exact List.filter_congr fun e _ => by cases h : (e.description != "" || e.amount.truthy) <;> simp [h]

/-- Dropping a non-filled entry leaves the filled list unchanged. -/
theorem filledEntries_drop (es₁ es₂ : List Entry) {d : Entry}
    (hdesc : d.description = "") (hamt : d.amount = NumStr.empty) :
    filledEntries (es₁ ++ d :: es₂) = filledEntries (es₁ ++ es₂) := by
  unfold filledEntries
  rw [List.filter_append, List.filter_append, List.filter_cons]
  rw [hdesc, hamt]
  rfl

/-- `varianceRow` depends on the entries only through `filledEntries`. -/
theorem varianceRow_congr {es₁ es₂ : List Entry}
    (h : filledEntries es₁ = filledEntries es₂) :
    varianceRow es₁ = varianceRow es₂ := by
  funext p
  simp only [varianceRow, h]

/-- C5: an entry is counted in the aggregates iff it is filled (non-empty
description or non-empty amount string): every output factors through
`filledEntries`, and inserting a draft entry (empty description, empty
amount) anywhere in the entry list leaves `summarize`, `buildSeries` and
`planVsActual` unchanged. -/
theorem draft_entries_excluded (es₁ es₂ : List Entry) (d : Entry) (g : Period)
    (b : NumStr) (ps : List Plan)
    (hdesc : d.description = "") (hamt : d.amount = NumStr.empty) :
    summarize (es₁ ++ d :: es₂) b = summarize (es₁ ++ es₂) b
    ∧ buildSeries (es₁ ++ d :: es₂) g b ps = buildSeries (es₁ ++ es₂) g b ps
    ∧ planVsActual ps (es₁ ++ d :: es₂) = planVsActual ps (es₁ ++ es₂)
    ∧ summarize (es₁ ++ es₂) b = summarize (filledEntries (es₁ ++ es₂)) b
    ∧ buildSeries (es₁ ++ es₂) g b ps = buildSeries (filledEntries (es₁ ++ es₂)) g b ps
    ∧ planVsActual ps (es₁ ++ es₂) = planVsActual ps (filledEntries (es₁ ++ es₂)) := by
  have hfe := filledEntries_drop es₁ es₂ hdesc hamt
  have hidem := filledEntries_idem (es₁ ++ es₂)
  refine ⟨?_, ?_, ?_, ?_, ?_, ?_⟩
  · simp only [summarize, totalIncome, totalExpense, hfe]
  · simp only [buildSeries, sortedFilled, hfe]
  · simp only [planVsActual, varianceRow_congr hfe]
  · simp only [summarize, totalIncome, totalExpense, hidem]
  · simp only [buildSeries, sortedFilled, hidem]
  · simp only [planVsActual, varianceRow_congr hidem.symm]

/-- C5 witness: the spec's draft entry 2024-03-01 with empty amount and
description changes none of the three outputs on the example data. -/
theorem draft_entries_excluded_witness :
    summarize ([exEntryJan] ++ exDraftEntry :: [exEntryFeb]) (NumStr.num 10000)
      = summarize ([exEntryJan] ++ [exEntryFeb]) (NumStr.num 10000)
    ∧ buildSeries ([exEntryJan] ++ exDraftEntry :: [exEntryFeb]) Period.month
        (NumStr.num 10000) [exPlanJan]
      = buildSeries ([exEntryJan] ++ [exEntryFeb]) Period.month
        (NumStr.num 10000) [exPlanJan]
    ∧ planVsActual [exPlanJan] ([exEntryJan] ++ exDraftEntry :: [exEntryFeb])
      = planVsActual [exPlanJan] ([exEntryJan] ++ [exEntryFeb]) := by
  have h := draft_entries_excluded [exEntryJan] [exEntryFeb] exDraftEntry Period.month
    (NumStr.num 10000) [exPlanJan] rfl rfl
  exact ⟨h.1, h.2.1, h.2.2.1⟩

/-- C10: `buildSeries` and `summarize` are invariant under permutation of
the entry list, for every granularity, initial balance and plan list. -/
theorem perm_invariance (es₁ es₂ : List Entry) (g : Period) (b : NumStr)
    (ps : List Plan) (h : es₁.Perm es₂) :
    buildSeries es₁ g b ps = buildSeries es₂ g b ps
    ∧ summarize es₁ b = summarize es₂ b := by
  have hf : (filledEntries es₁).Perm (filledEntries es₂) := h.filter _
  have hs : (sortedFilled es₁).Perm (sortedFilled es₂) :=
    (sortedFilled_perm es₁).trans (hf.trans (sortedFilled_perm es₂).symm)
  constructor
  · unfold buildSeries
    by_cases hnil : filledEntries es₁ = []
    · have hnil2 : filledEntries es₂ = [] := by
        rw [hnil] at hf
        exact hf.symm.eq_nil
      rw [hnil, hnil2]
      rfl
    · have hnil2 : filledEntries es₂ ≠ [] := by
        intro h2
        rw [h2] at hf
        exact hnil hf.eq_nil
      have g1 : ¬((filledEntries es₁).isEmpty = true) := by simpa using hnil
      have g2 : ¬((filledEntries es₂).isEmpty = true) := by simpa using hnil2
      rw [if_neg g1, if_neg g2, sortedKeys_congr g hs, seriesRows_congr g ps hs]
  · have hinc : totalIncome es₁ = totalIncome es₂ := by
      unfold totalIncome
      rw [foldl_add_eq, foldl_add_eq]
      exact congrArg (0 + ·) (((hf.filter _).map _).sum_eq)
    have hexp : totalExpense es₁ = totalExpense es₂ := by
      unfold totalExpense
      rw [foldl_add_eq, foldl_add_eq]
      exact congrArg (0 + ·) (((hf.filter _).map _).sum_eq)
    simp only [summarize, hinc, hexp]

/-- C10 witness: swapping the two example entries changes neither output. -/
theorem perm_invariance_witness :
    buildSeries [exEntryFeb, exEntryJan] Period.month (NumStr.num 10000) [exPlanJan]
      = buildSeries [exEntryJan, exEntryFeb] Period.month (NumStr.num 10000) [exPlanJan]
    ∧ summarize [exEntryFeb, exEntryJan] (NumStr.num 10000)
      = summarize [exEntryJan, exEntryFeb] (NumStr.num 10000) :=
  perm_invariance [exEntryFeb, exEntryJan] [exEntryJan, exEntryFeb] Period.month
    (NumStr.num 10000) [exPlanJan] (by decide)

theorem sortedKeys_length_eq_dedup (g : Period) (es : List Entry) :
    (sortedKeys g (sortedFilled es)).length
      = (((filledEntries es).map fun e => groupKey g e.date).dedup).length := by
  rw [(sortedKeys_perm g (sortedFilled es)).length_eq]
  have hperm : (objKeys g (sortedFilled es)).Perm
      (((filledEntries es).map fun e => groupKey g e.date).dedup) := by
    rw [List.perm_ext_iff_of_nodup (objKeys_nodup _ _) (List.nodup_dedup _)]
    intro k
    rw [mem_objKeys, List.mem_dedup, List.mem_map]
    constructor
    · rintro ⟨e, he, rfl⟩
      exact ⟨e, (sortedFilled_perm es).mem_iff.mp he, rfl⟩
    · rintro ⟨e, he, rfl⟩
      exact ⟨e, (sortedFilled_perm es).mem_iff.mpr he, rfl⟩
  exact hperm.length_eq

/-- C2: for every entry list, granularity, initial balance and plan list:
the series has one row per distinct bucket key of the filled entries; its
rows are strictly ascending in bucket key (sorted and duplicate-free);
each row's balance is the initial balance plus the cumulative
(income - expense) of the buckets up to and including that row in sorted
key order; and an empty filled-entry set yields an empty series. -/
theorem buildSeries_structure (es : List Entry) (g : Period) (b : NumStr)
    (ps : List Plan) :
    (buildSeries es g b ps).length
        = (((filledEntries es).map fun e => groupKey g e.date).dedup).length
    ∧ ((buildSeries es g b ps).map Row.period).Sorted strLe
    ∧ ((buildSeries es g b ps).map Row.period).Nodup
    ∧ (∀ i (h : i < (buildSeries es g b ps).length),
        ((buildSeries es g b ps)[i]).balance
          = numOr0 b + ((((buildSeries es g b ps).map Row.period).take (i + 1)).map
              fun k => bucketIncome g (sortedFilled es) k
                - bucketExpense g (sortedFilled es) k).sum)
    ∧ (filledEntries es = [] → buildSeries es g b ps = []) := by
  by_cases hnil : filledEntries es = []
  · have hb : buildSeries es g b ps = [] := by
      unfold buildSeries
      rw [if_pos]
      simpa using hnil
    refine ⟨?_, ?_, ?_, ?_, fun _ => hb⟩
    · rw [hb, hnil]
      rfl
    · rw [hb]
      exact List.sorted_nil
    · rw [hb]
      exact List.nodup_nil
    · intro i h
      rw [hb] at h
      cases h
  · have hb : buildSeries es g b ps
        = seriesRows g ps (sortedFilled es) (numOr0 b)
            (sortedKeys g (sortedFilled es)) := by
      unfold buildSeries
      rw [if_neg]
      simpa using hnil
    refine ⟨?_, ?_, ?_, ?_, fun h => absurd h hnil⟩
    · rw [hb, seriesRows_length, sortedKeys_length_eq_dedup]
    · rw [hb, seriesRows_map_period]
      exact sortedKeys_sorted g _
    · rw [hb, seriesRows_map_period]
      exact sortedKeys_nodup g _
    · intro i h
      simp only [hb, seriesRows_map_period] at h ⊢
      exact seriesRows_balance g ps _ _ _ i (by simpa [seriesRows_length] using h)

/-- C3: `planVsActual` yields exactly one row per plan (it is a permutation
of the per-plan rows, so its length is `plans.length`), sorted ascending by
month; each row's actuals are the sums of the amounts of filled entries of
the matching kind whose date buckets to the plan's month, the planned
fields coerce non-numeric values to zero, and the variances are actual
minus planned.  The spec's worked example is included. -/
theorem planVsActual_spec (ps : List Plan) (es : List Entry) :
    (planVsActual ps es).length = ps.length
    ∧ (planVsActual ps es).Perm (ps.map (varianceRow es))
    ∧ ((planVsActual ps es).map VRow.month).Sorted strLe
    ∧ (∀ p : Plan, varianceRow es p =
        { month := p.month
          plannedIncome := numOr0 p.plannedIncome
          actualIncome := (((filledEntries es).filter fun e =>
              e.type == Kind.income && parseMonth e.date == p.month).map
                fun e => numOr0 e.amount).sum
          plannedExpense := numOr0 p.plannedExpense
          actualExpense := (((filledEntries es).filter fun e =>
              e.type == Kind.expense && parseMonth e.date == p.month).map
                fun e => numOr0 e.amount).sum
          targetBalance := numOr0 p.targetBalance
          incomeVariance := (((filledEntries es).filter fun e =>
              e.type == Kind.income && parseMonth e.date == p.month).map
                fun e => numOr0 e.amount).sum - numOr0 p.plannedIncome
          expenseVariance := (((filledEntries es).filter fun e =>
              e.type == Kind.expense && parseMonth e.date == p.month).map
                fun e => numOr0 e.amount).sum - numOr0 p.plannedExpense })
    ∧ planVsActual [exPlanJan] [exEntryJan]
        = [{ month := "2024-01", plannedIncome := 4000, actualIncome := 0,
             plannedExpense := 900, actualExpense := 1000, targetBalance := 0,
             incomeVariance := -4000, expenseVariance := 100 }] := by
  refine ⟨?_, ?_, ?_, ?_, by decide⟩
  · unfold planVsActual
    by_cases hps : ps.isEmpty = true
    · rw [if_pos hps]
      rw [List.isEmpty_eq_true] at hps
      rw [hps]
      rfl
    · rw [if_neg hps]
      rw [(List.perm_insertionSort monthLe _).length_eq, List.length_map]
  · unfold planVsActual
    by_cases hps : ps.isEmpty = true
    · rw [if_pos hps]
      rw [List.isEmpty_eq_true] at hps
      rw [hps]
      exact List.Perm.refl _
    · rw [if_neg hps]
      exact List.perm_insertionSort monthLe _
  · unfold planVsActual
    by_cases hps : ps.isEmpty = true
    · rw [if_pos hps]
      exact List.sorted_nil
    · rw [if_neg hps]
      have hs := List.sorted_insertionSort monthLe (ps.map (varianceRow es))
      exact List.pairwise_map.mpr hs
  · intro p
    unfold varianceRow
    dsimp only
    rw [List.filter_filter, List.filter_filter, foldl_add_eq, foldl_add_eq, zero_add, zero_add]

theorem bucketIncome_eq_totalIncome {es : List Entry} {y : String}
    (hsf : ∀ e ∈ sortedFilled es, groupKey Period.year e.date = y) :
    bucketIncome Period.year (sortedFilled es) y = totalIncome es := by
  unfold bucketIncome totalIncome
  rw [List.filter_congr (q := fun e => e.type == Kind.income)
    (fun e he => by rw [hsf e he]; simp)]
  rw [foldl_add_eq, foldl_add_eq]
  exact congrArg (0 + ·) ((((sortedFilled_perm es).filter _).map _).sum_eq)

theorem bucketExpense_eq_totalExpense {es : List Entry} {y : String}
    (hsf : ∀ e ∈ sortedFilled es, groupKey Period.year e.date = y) :
    bucketExpense Period.year (sortedFilled es) y = totalExpense es := by
  unfold bucketExpense totalExpense
  rw [List.filter_congr (q := fun e => e.type == Kind.expense)
    (fun e he => by rw [hsf e he]; simp [kind_not_income])]
  rw [foldl_add_eq, foldl_add_eq]
  exact congrArg (0 + ·) ((((sortedFilled_perm es).filter _).map _).sum_eq)

/-- C6: when every entry of the list buckets to the same year and the
filled-entry set is non-empty, the balance of the last row of the
Year-granularity series (with no plans) equals `summarize`'s
currentBalance. -/
theorem currentBalance_matches_year_series (es : List Entry) (b : NumStr) (y : String)
    (hy : ∀ e ∈ es, parseYear e.date = y) (hne : filledEntries es ≠ []) :
    ((buildSeries es Period.year b []).getLast?).map Row.balance
      = some (summarize es b).currentBalance := by
  have hsf : ∀ e ∈ sortedFilled es, groupKey Period.year e.date = y := by
    intro e he
    exact hy e (mem_filledEntries_of_mem ((sortedFilled_perm es).mem_iff.mp he))
  have hsfne : sortedFilled es ≠ [] := by
    intro h0
    apply hne
    have hp := sortedFilled_perm es
    rw [h0] at hp
    exact hp.symm.eq_nil
  have hkeys : sortedKeys Period.year (sortedFilled es) = [y] := by
    unfold sortedKeys
    rw [objKeys_all_eq hsfne hsf]
    rfl
  have hguard : ¬((filledEntries es).isEmpty = true) := by simpa using hne
  unfold buildSeries
  rw [if_neg hguard, hkeys]
  unfold seriesRows
  dsimp only
  unfold seriesRows
  rw [List.getLast?_singleton, bucketIncome_eq_totalIncome hsf,
    bucketExpense_eq_totalExpense hsf]
  rfl

/-- C6 witness: the two example entries both bucket to year 2024. -/
theorem currentBalance_matches_year_series_witness :
    ((buildSeries [exEntryJan, exEntryFeb] Period.year (NumStr.num 10000) []).getLast?).map
        Row.balance
      = some (summarize [exEntryJan, exEntryFeb] (NumStr.num 10000)).currentBalance :=
  currentBalance_matches_year_series [exEntryJan, exEntryFeb] (NumStr.num 10000) "2024"
    (by decide) (by decide)

/-- A plan for 2024-01 whose target balance is the numeric string `"0"`. -/
def zeroTargetPlan : Plan :=
  { id := "p0", month := "2024-01", targetBalance := NumStr.num 0,
    plannedIncome := NumStr.empty, plannedExpense := NumStr.empty }

theorem numOrNull_eq_some {x : NumStr} {v : Int} :
    numOrNull x = some v ↔ x = NumStr.num v ∧ v ≠ 0 := by
  cases x with
  | empty =>
    simp only [numOrNull]
    constructor
    · intro h
      cases h
    · rintro ⟨h1, _⟩
      cases h1
  | nonnum =>
    simp only [numOrNull]
    constructor
    · intro h
      cases h
    · rintro ⟨h1, _⟩
      cases h1
  | num n =>
    by_cases hn : n = 0
    · subst hn
      simp only [numOrNull, if_pos rfl]
      constructor
      · intro h
        cases h
      · rintro ⟨h1, h2⟩
        cases h1
        exact absurd rfl h2
    · simp only [numOrNull, if_neg hn]
      constructor
      · intro h
        cases h
        exact ⟨rfl, hn⟩
      · rintro ⟨h1, _⟩
        cases h1
        rfl

/-- C7 counterexample: under Month granularity, the series row for 2024-01
has a matching plan whose targetBalance is numeric (the entered string
`"0"`), yet its planBalance is null — because the source computes
`Number(plan.targetBalance) || null`, which also nulls out a numeric zero.
So planBalance is NOT null "exactly when such a plan is absent or its
targetBalance is non-numeric". -/
theorem planBalance_zero_counterexample :
    (buildSeries [exEntryJan] Period.month (NumStr.num 10000) [zeroTargetPlan]).map
        Row.planBalance = [none]
    ∧ (buildSeries [exEntryJan] Period.month (NumStr.num 10000) [zeroTargetPlan]).map
        Row.period = ["2024-01"]
    ∧ zeroTargetPlan.month = "2024-01"
    ∧ zeroTargetPlan.targetBalance = NumStr.num 0 := by
  decide

/-- C7 (amended): a row's planBalance comes from looking up the first plan
whose month equals the row's bucket key; under Month granularity it is
`some v` exactly when that lookup finds a plan whose targetBalance is the
numeric value `v ≠ 0` — hence null exactly when the plan is absent or its
targetBalance is non-numeric, empty, or zero.  Under Day, Week and Year
granularity every row's planBalance is null, provided plan months are
7-character strings of digits and hyphens (`YYYY-MM`) and entry dates are
10-character strings (`YYYY-MM-DD`). -/
theorem planBalance_amended (es : List Entry) (ps : List Plan) (b : NumStr) (g : Period)
    (hps : ∀ p ∈ ps, p.month.length = 7 ∧ ∀ c ∈ p.month.data, c.isDigit ∨ c = '-')
    (hes : ∀ e ∈ es, e.date.length = 10) :
    (∀ r ∈ buildSeries es Period.month b ps, ∀ v : Int,
        r.planBalance = some v ↔
          ∃ p, ps.find? (fun q => q.month == r.period) = some p
            ∧ p.targetBalance = NumStr.num v ∧ v ≠ 0)
    ∧ (g ≠ Period.month → ∀ r ∈ buildSeries es g b ps, r.planBalance = none) := by
  have hmem_series : ∀ (g' : Period) (r : Row), r ∈ buildSeries es g' b ps →
      r.period ∈ sortedKeys g' (sortedFilled es) ∧
        r.planBalance = (match ps.find? (fun p => p.month == r.period) with
          | some p => numOrNull p.targetBalance
          | none => none) := by
    intro g' r hr
    unfold buildSeries at hr
    split at hr
    · cases hr
    · exact seriesRows_mem g' ps _ _ _ r hr
  constructor
  · intro r hr v
    have h2 := (hmem_series Period.month r hr).2
    rw [h2]
    cases hfind : ps.find? (fun p => p.month == r.period) with
    | none => simp
    | some p =>
      constructor
      · intro h
        have h' : numOrNull p.targetBalance = some v := h
        exact ⟨p, rfl, (numOrNull_eq_some.mp h').1, (numOrNull_eq_some.mp h').2⟩
      · rintro ⟨p', hp', htb, hv⟩
        cases hp'
        exact numOrNull_eq_some.mpr ⟨htb, hv⟩
  · intro hg r hr
    obtain ⟨hkey, h2⟩ := hmem_series g r hr
    rw [h2]
    have hexists : ∃ e ∈ es, groupKey g e.date = r.period := by
      have hk := (sortedKeys_perm g _).mem_iff.mp hkey
      rw [mem_objKeys] at hk
      obtain ⟨e, he, hgk⟩ := hk
      exact ⟨e, mem_filledEntries_of_mem ((sortedFilled_perm es).mem_iff.mp he), hgk⟩
    obtain ⟨e, he, hgk⟩ := hexists
    have hfind : ps.find? (fun q => q.month == r.period) = none := by
      rw [List.find?_eq_none]
      intro q hq
      simp only [beq_iff_eq]
      intro hqeq
      obtain ⟨hlen, hchars⟩ := hps q hq
      rw [hqeq, ← hgk] at hlen
      cases g with
      | month => exact hg rfl
      | day =>
        have := hes e he
        simp only [groupKey] at hlen
        omega
      | year =>
        simp only [groupKey, parseYear] at hlen
        have hle : (strTake e.date 4).length ≤ 4 := by
          show (e.date.data.take 4).length ≤ 4
          rw [List.length_take]
          omega
        omega
      | week =>
        have hW : 'W' ∈ (parseWeek e.date).data := by
          unfold parseWeek
          dsimp only
          rw [String.data_append, String.data_append]
          refine List.mem_append.mpr (Or.inl (List.mem_append.mpr (Or.inr ?_)))
          decide
        rw [hqeq, ← hgk] at hchars
        simp only [groupKey] at hchars
        rcases hchars 'W' hW with h | h
        · exact absurd h (by decide)
        · cases h
    rw [hfind]

/-- C7 (amended) witness: under Year granularity every row of the example
series built against the zero-target plan has null planBalance. -/
theorem planBalance_amended_witness :
    ((buildSeries [exEntryJan] Period.year (NumStr.num 0) [zeroTargetPlan]).get
        ⟨0, by decide⟩).planBalance = none := by
  have h := (planBalance_amended [exEntryJan] [zeroTargetPlan] (NumStr.num 0) Period.year
    (by decide) (by decide)).2 (by decide)
  exact h _ (List.get_mem _ _ _)

theorem mapWithIdx_congr {α : Type} (l : List α) :
    ∀ (f f' : Nat → α → α), (∀ j a, f j a = f' j a) → mapWithIdx l f = mapWithIdx l f' := by
  induction l with
  | nil => intro f f' _; rfl
  | cons a as ih =>
    intro f f' h
    unfold mapWithIdx
    rw [h 0 a, ih (fun j => f (j + 1)) (fun j => f' (j + 1)) (fun j b => h (j + 1) b)]

theorem mapWithIdx_id {α : Type} : ∀ (l : List α), mapWithIdx l (fun _ a => a) = l
  | [] => rfl
  | a :: as => by
    unfold mapWithIdx
    rw [mapWithIdx_id as]

theorem mapWithIdx_replace {α : Type} (f : α → α) :
    ∀ (l₁ : List α) (x : α) (l₂ : List α),
      mapWithIdx (l₁ ++ x :: l₂) (fun j a => if j = l₁.length then f a else a)
        = l₁ ++ f x :: l₂
  | [], x, l₂ => by
    show (if (0 : Nat) = 0 then f x else x)
        :: mapWithIdx l₂ (fun j b => if j + 1 = 0 then f b else b) = f x :: l₂
    rw [if_pos rfl]
    congr 1
    rw [mapWithIdx_congr l₂ (fun j b => if j + 1 = 0 then f b else b) (fun _ b => b)
      (fun j b => by dsimp only; rw [if_neg (by omega)])]
    exact mapWithIdx_id l₂
  | a :: l₁, x, l₂ => by
    show (if 0 = l₁.length + 1 then f a else a)
        :: mapWithIdx (l₁ ++ x :: l₂) (fun j b => if j + 1 = l₁.length + 1 then f b else b)
      = a :: (l₁ ++ f x :: l₂)
    rw [if_neg (by omega)]
    congr 1
    rw [mapWithIdx_congr (l₁ ++ x :: l₂)
      (fun j b => if j + 1 = l₁.length + 1 then f b else b)
      (fun j b => if j = l₁.length then f b else b)
      (fun j b => by
        dsimp only
        by_cases hj : j = l₁.length
        · rw [if_pos (by omega), if_pos hj]
        · rw [if_neg (by omega), if_neg hj])]
    exact mapWithIdx_replace f l₁ x l₂

theorem findIdx?_first_match (p : Plan → Bool) :
    ∀ (l₁ : List Plan) (x : Plan) (l₂ : List Plan) (i : Nat),
      (∀ a ∈ l₁, p a = false) → p x = true →
      (l₁ ++ x :: l₂).findIdx? p i = some (l₁.length + i)
  | [], x, l₂, i, _, hx => by
    simp [List.findIdx?_cons, hx]
  | a :: l₁, x, l₂, i, h, hx => by
    rw [List.cons_append, List.findIdx?_cons]
    rw [h a (List.mem_cons_self a l₁)]
    simp only [Bool.false_eq_true, if_false]
    rw [findIdx?_first_match p l₁ x l₂ (i + 1)
      (fun b hb => h b (List.mem_cons_of_mem a hb)) hx]
    congr 1
    simp only [List.length_cons]
    omega

theorem findIdx?_decomp (p : Plan → Bool) :
    ∀ (l : List Plan) (s i : Nat), l.findIdx? p s = some i →
      ∃ l₁ x l₂, l = l₁ ++ x :: l₂ ∧ s + l₁.length = i ∧ p x = true ∧
        ∀ a ∈ l₁, p a = false
  | [], s, i, h => by cases h
  | a :: l, s, i, h => by
    rw [List.findIdx?_cons] at h
    by_cases ha : p a = true
    · rw [if_pos ha] at h
      cases h
      exact ⟨[], a, l, rfl, by simp, ha, by simp⟩
    · rw [if_neg ha] at h
      obtain ⟨l₁, x, l₂, rfl, hlen, hx, hall⟩ := findIdx?_decomp p l (s + 1) i h
      refine ⟨a :: l₁, x, l₂, rfl, ?_, hx, ?_⟩
      · simp only [List.length_cons]
        omega
      · intro b hb
        rcases List.mem_cons.mp hb with rfl | hb'
        · simpa using ha
        · exact hall b hb'

/-- C8: with distinct plan months and a non-blank form, the plan operations
preserve the at-most-one-plan-per-month invariant: upserting over an
existing month replaces exactly that plan in place with the form's values
while keeping the original id (so the month and id lists are unchanged and
nothing is appended), upserting a fresh month appends exactly one plan,
and deleting a plan also preserves distinctness. -/
theorem addPlan_upsert (plans : List Plan) (form : Plan) (pid : String)
    (hnd : (plans.map Plan.month).Nodup) (hne : ¬ planFormBlank form) :
    ((addPlan plans form).map Plan.month).Nodup
    ∧ ((deletePlan plans pid).map Plan.month).Nodup
    ∧ (∀ l₁ pl l₂, plans = l₁ ++ pl :: l₂ → (∀ q ∈ l₁, q.month ≠ form.month) →
        pl.month = form.month →
        addPlan plans form = l₁ ++ { form with id := pl.id } :: l₂
          ∧ (addPlan plans form).map Plan.month = plans.map Plan.month
          ∧ (addPlan plans form).map Plan.id = plans.map Plan.id)
    ∧ ((∀ pl ∈ plans, pl.month ≠ form.month) → addPlan plans form = plans ++ [form]) := by
  have haddNe : ∀ x, addPlan plans form = x ↔
      (match plans.findIdx? (fun p => p.month == form.month) with
        | some i => mapWithIdx plans fun j pl => if j = i then { form with id := pl.id } else pl
        | none => plans ++ [form]) = x := by
    intro x
    unfold addPlan
    rw [if_neg hne]
  have hreplace : ∀ l₁ pl l₂, plans = l₁ ++ pl :: l₂ → (∀ q ∈ l₁, q.month ≠ form.month) →
      pl.month = form.month →
      addPlan plans form = l₁ ++ { form with id := pl.id } :: l₂ := by
    intro l₁ pl l₂ hsplit hfirst hpl
    rw [haddNe]
    subst hsplit
    have hidx : (l₁ ++ pl :: l₂).findIdx? (fun p => p.month == form.month) 0
        = some l₁.length := by
      have := findIdx?_first_match (fun p => p.month == form.month) l₁ pl l₂ 0
        (fun a ha => by simpa using hfirst a ha) (by simpa using hpl)
      simpa using this
    rw [hidx]
    exact mapWithIdx_replace (fun pl => { form with id := pl.id }) l₁ pl l₂
  have happend : (∀ pl ∈ plans, pl.month ≠ form.month) →
      addPlan plans form = plans ++ [form] := by
    intro hall
    rw [haddNe]
    have hnone : plans.findIdx? (fun p => p.month == form.month) 0 = none := by
      rw [List.findIdx?_eq_none_iff]
      intro x hx
      simpa using hall x hx
    rw [hnone]
  refine ⟨?_, ?_, ?_, happend⟩
  · by_cases hex : ∃ pl ∈ plans, pl.month = form.month
    · obtain ⟨pl, hplmem, hplm⟩ := hex
      rcases hidx : plans.findIdx? (fun p => p.month == form.month) 0 with _ | i
      · rw [List.findIdx?_eq_none_iff] at hidx
        exact absurd (by simpa using hplm) (by simpa using hidx pl hplmem)
      · obtain ⟨l₁, x, l₂, hsplit, -, hx, hall⟩ :=
          findIdx?_decomp (fun p => p.month == form.month) plans 0 i hidx
        have hxm : x.month = form.month := by simpa using hx
        have heq := hreplace l₁ x l₂ hsplit
          (fun q hq => by simpa using hall q hq) hxm
        rw [heq]
        have hm1 : (l₁ ++ { form with id := x.id } :: l₂).map Plan.month
            = (l₁ ++ x :: l₂).map Plan.month := by
          simp only [List.map_append, List.map_cons]
          rw [hxm]
        rw [hm1, ← hsplit]
        exact hnd
    · push_neg at hex
      rw [happend hex]
      simp only [List.map_append, List.map_cons, List.map_nil]
      rw [List.nodup_append]
      refine ⟨hnd, List.nodup_singleton _, ?_⟩
      intro m hm
      simp only [List.mem_singleton]
      intro hmf
      subst hmf
      obtain ⟨q, hq, hqm⟩ := List.mem_map.mp hm
      exact hex q hq hqm
  · unfold deletePlan
    exact ((List.filter_sublist plans).map Plan.month).nodup hnd
  · intro l₁ pl l₂ hsplit hfirst hpl
    have heq := hreplace l₁ pl l₂ hsplit hfirst hpl
    refine ⟨heq, ?_, ?_⟩
    · rw [heq, hsplit]
      simp only [List.map_append, List.map_cons]
      rw [hpl]
    · rw [heq, hsplit]
      simp

/-- The upsert form used in the C8 witness, for the existing month. -/
def wFormJan : Plan :=
  { id := "q", month := "2024-01", targetBalance := NumStr.num 5,
    plannedIncome := NumStr.empty, plannedExpense := NumStr.empty }

/-- The upsert form used in the C8 witness, for a fresh month. -/
def wFormMar : Plan :=
  { id := "q", month := "2024-03", targetBalance := NumStr.num 5,
    plannedIncome := NumStr.empty, plannedExpense := NumStr.empty }

/-- C8 witness: upserting a form for the existing month 2024-01 replaces
the plan in place keeping its id; upserting a fresh month 2024-03 appends. -/
theorem addPlan_upsert_witness :
    addPlan [exPlanJan] wFormJan = [] ++ { wFormJan with id := "p1" } :: []
    ∧ addPlan [exPlanJan] wFormMar = [exPlanJan] ++ [wFormMar] := by
  constructor
  · exact ((addPlan_upsert [exPlanJan] wFormJan "x" (by decide) (by decide)).2.2.1
      [] exPlanJan [] rfl (by simp) rfl).1
  · exact (addPlan_upsert [exPlanJan] wFormMar "x" (by decide) (by decide)).2.2.2
      (by decide)

/-! ## C9: the §4.1 week formula, stated from the spec's words -/

/-- Weekday of January 1st of year `y` (0 = Sunday .. 6 = Saturday), the
`weekdayOfJan1` of the spec's §4.1 formula.  Modulo 7 each plain year
contributes 365 ≡ 1 and the Gregorian leap corrections contribute
`p/4 - p/100 + p/400 ≡ p/4 + 6*(p/100) + p/400` where `p = y - 1`; the
final `+ 1` anchors 0001-01-01 (and 2001-01-01) on a Monday. -/
def specWeekdayJan1 (y : Nat) : Nat :=
  (365 * (y - 1) + (y - 1) / 4 + 6 * ((y - 1) / 100) + (y - 1) / 400 + 1) % 7

/-- `daysSinceJan1` of the spec's §4.1 week formula. -/
def specDaysSinceJan1 (y m d : Nat) : Nat := daysBeforeMonth y m + (d - 1)

/-- The spec's §4.1 week number `ceil((daysSinceJan1 + weekdayOfJan1 + 1) / 7)`
as an exact ceiling division on naturals. -/
def specWeekNum (y m d : Nat) : Nat :=
  (specDaysSinceJan1 y m d + specWeekdayJan1 y + 1 + 6) / 7

/-- The spec's §4.1 week bucket `YYYY-Www` (2-digit, zero-padded). -/
def specWeekKey (y m d : Nat) : String :=
  toString y ++ "-W" ++ padStart2 (toString (specWeekNum y m d))

/-- A valid calendar date with a 4-digit year. -/
def validDate (y m d : Nat) : Prop :=
  1 ≤ y ∧ y ≤ 9999 ∧ 1 ≤ m ∧ m ≤ 12 ∧ 1 ≤ d ∧ d ≤ daysInMonth y m

instance : Decidable (validDate y m d) := by
  unfold validDate
  infer_instance

theorem epochDays_diff (y m d : Nat) :
    epochDays y m d - epochDays y 1 1
      = (daysBeforeMonth y m : Int) + ((d - 1 : Nat) : Int) := by
  unfold epochDays
  have h1 : daysBeforeMonth y 1 = 0 := rfl
  rw [h1]
  push_cast
  ring

theorem jsDay_jan1 (y : Nat) : jsDay (epochDays y 1 1) = (specWeekdayJan1 y : Int) := by
  unfold jsDay epochDays daysToYear specWeekdayJan1
  have h1 : daysBeforeMonth y 1 = 0 := rfl
  rw [h1]
  dsimp only
  generalize y - 1 = p
  push_cast
  omega

theorem toString_intOfNat (n : Nat) : toString ((n : Nat) : Int) = toString n := rfl

/-- C9 counterexample: "0050-01-01" is a valid ISO date string (year 50,
month 1, day 1), but `parseWeek` does not return the §4.1 formula value:
the source computes `jan1 = new Date(50, 0, 1)`, which the JS `Date`
constructor's two-digit-year rule turns into 1950-01-01, so the day
difference is a large negative number and the output week is `-99137`
instead of the formula's `01`. -/
theorem parseWeek_twoDigitYear_counterexample :
    str2nat (strTake "0050-01-01" 4) = 50
    ∧ str2nat (strTake (strDrop "0050-01-01" 5) 2) = 1
    ∧ str2nat (strTake (strDrop "0050-01-01" 8) 2) = 1
    ∧ validDate 50 1 1
    ∧ parseWeek "0050-01-01" = "50-W-99137"
    ∧ specWeekKey 50 1 1 = "50-W01"
    ∧ parseWeek "0050-01-01" ≠ specWeekKey 50 1 1 := by
  decide

/-- C9 (amended): for every valid ISO date string whose year is at least
100 — one whose year, month and day components parse to `y`, `m`, `d` —
`parseWeek` returns exactly `YYYY-Www`, where `ww` is the 2-digit
zero-padded value of `ceil((daysSinceJan1 + weekdayOfJan1 + 1) / 7)` with
weekday counted 0=Sunday..6=Saturday, the raw arithmetic with no
special-casing at week boundaries; in particular "2024-01-01" (a Monday)
buckets to the formula value.  For years 1–99 the JS `Date` constructor
computes `jan1` in 1900+y and the formula fails (see the counterexample). -/
theorem parseWeek_spec (s : String) (y m d : Nat)
    (hy : str2nat (strTake s 4) = y)
    (hm : str2nat (strTake (strDrop s 5) 2) = m)
    (hd : str2nat (strTake (strDrop s 8) 2) = d)
    (hv : validDate y m d) (hy100 : 100 ≤ y) :
    parseWeek s = specWeekKey y m d := by
  unfold parseWeek
  dsimp only
  rw [hy, hm, hd]
  rw [if_neg (by omega)]
  have hwk : (epochDays y m d - epochDays y 1 1 + jsDay (epochDays y 1 1) + 1 + 6) / 7
      = ((specWeekNum y m d : Nat) : Int) := by
    rw [epochDays_diff, jsDay_jan1]
    unfold specWeekNum specDaysSinceJan1
    generalize daysBeforeMonth y m = B
    generalize (d - 1 : Nat) = d1
    generalize specWeekdayJan1 y = W
    push_cast
    omega
  rw [hwk, toString_intOfNat]
  rfl

/-- C9 witness: the week bucket of "2024-01-01" is the §4.1 formula value,
which evaluates to "2024-W01". -/
theorem parseWeek_spec_witness :
    parseWeek "2024-01-01" = specWeekKey 2024 1 1
    ∧ specWeekKey 2024 1 1 = "2024-W01" :=
  ⟨parseWeek_spec "2024-01-01" 2024 1 1 (by decide) (by decide) (by decide) (by decide)
    (by decide), by decide⟩

/-- C2 witness: the structure theorem instantiated on the empty list (empty
series) and on the example data (row count and first-row running balance). -/
theorem buildSeries_structure_witness :
    buildSeries [] Period.month (NumStr.num 10000) [] = []
    ∧ (buildSeries [exEntryJan, exEntryFeb] Period.month (NumStr.num 10000) []).length
        = (((filledEntries [exEntryJan, exEntryFeb]).map
            fun e => groupKey Period.month e.date).dedup).length
    ∧ ((buildSeries [exEntryJan, exEntryFeb] Period.month (NumStr.num 10000) []).get
        ⟨0, by decide⟩).balance = 9000 := by
  refine ⟨(buildSeries_structure [] Period.month (NumStr.num 10000) []).2.2.2.2 rfl,
    (buildSeries_structure [exEntryJan, exEntryFeb] Period.month (NumStr.num 10000) []).1,
    ?_⟩
  have h := (buildSeries_structure [exEntryJan, exEntryFeb] Period.month
    (NumStr.num 10000) []).2.2.2.1 0 (by decide)
  exact h.trans (by decide)
